import Mathlib

/-!
Verification of the BLITZ-BOTS/Bot plugin-loading framework.

The development shallowly embeds the TypeScript sources:
  - `src/Validators/Validators.ts`  (structural validators over JS values)
  - `src/Utils/ModuleLoader.ts`     (dynamic module loading from a directory)
  - `src/Utils/PluginLoader.ts`     (plugin discovery: config, commands, events)
  - `src/Bot.ts`                    (command registry, dispatch, event wiring)

JS runtime values are modelled by the inductive `Value`; operations that can
throw in JS (`in` on a non-object, property access on null/undefined, dynamic
import, filesystem reads, YAML parsing) are modelled in `Except String`, and
`try`/`catch` blocks of the source are modelled by `catchWith`.
-/

namespace BlitzBot

/-- A JavaScript runtime value, as far as the validators and loaders observe
it: null, undefined, primitives, functions (abstracted to an identifier),
plain objects (ordered field lists, first occurrence wins) and arrays. -/
inductive Value where
  | vNull
  | vUndefined
  | vBool (b : Bool)
  | vNum (n : Int)
  | vStr (s : String)
  | vFunc (id : Nat)
  | vObj (fields : List (String × Value))
  | vArr (elems : List Value)
deriving Repr

/-- JS `typeof` operator (note `typeof null === "object"`). -/
def jsTypeof : Value → String
  | .vNull => "object"
  | .vUndefined => "undefined"
  | .vBool _ => "boolean"
  | .vNum _ => "number"
  | .vStr _ => "string"
  | .vFunc _ => "function"
  | .vObj _ => "object"
  | .vArr _ => "object"

/-- JS truthiness: null, undefined, false, 0 and "" are falsy; every object,
array and function is truthy. -/
def truthy : Value → Bool
  | .vNull => false
  | .vUndefined => false
  | .vBool b => b
  | .vNum n => n != 0
  | .vStr s => s != ""
  | .vFunc _ => true
  | .vObj _ => true
  | .vArr _ => true

/-- First binding of a key in an object's field list. -/
def lookupField : List (String × Value) → String → Option Value
  | [], _ => none
  | (k, v) :: rest, key => if k == key then some v else lookupField rest key

/-- Digit value of a character, if it is a decimal digit. -/
def charDigit? (c : Char) : Option Nat :=
  if c.isDigit then some (c.toNat - 48) else none

/-- Parse a canonical decimal numeral (no leading zeros except "0" itself),
used to model JS array-index keys. -/
def strToNat? (s : String) : Option Nat :=
  match s.toList with
  | [] => none
  | ['0'] => some 0
  | '0' :: _ :: _ => none
  | cs =>
    cs.foldl
      (fun acc c =>
        match acc, charDigit? c with
        | some n, some d => some (n * 10 + d)
        | _, _ => none)
      (some 0)

/-- Total core of the JS `in` operator, on object-typed values: key presence
in an object, index or `length` of an array, the built-in `name`/`length`
properties of a function.  On primitives it returns false (the fallible
wrapper `jsInE` raises there instead; the validators only reach `in` under a
`typeof === "object"` guard). -/
def hasIn (v : Value) (key : String) : Bool :=
  match v with
  | .vObj fields => fields.any (fun p => p.1 == key)
  | .vArr elems =>
    key == "length" ||
      (match strToNat? key with
       | some i => decide (i < elems.length)
       | none => false)
  | .vFunc _ => key == "name" || key == "length"
  | _ => false

/-- JS `key in v`: defined on objects, arrays and functions, a TypeError on
any primitive, null or undefined. -/
def jsInE (key : String) (v : Value) : Except String Bool :=
  match v with
  | .vObj _ => .ok (hasIn v key)
  | .vArr _ => .ok (hasIn v key)
  | .vFunc _ => .ok (hasIn v key)
  | _ => .error "TypeError: cannot use in operator"

/-- Total core of JS property access `v[key]`: undefined for a missing key.
On null/undefined it returns undefined (the fallible wrapper `getPropE`
raises there instead). -/
def getProp (v : Value) (key : String) : Value :=
  match v with
  | .vObj fields => (lookupField fields key).getD .vUndefined
  | .vArr elems =>
    if key == "length" then .vNum elems.length
    else match strToNat? key with
      | some i => elems.getD i .vUndefined
      | none => .vUndefined
  | .vStr s => if key == "length" then .vNum s.length else .vUndefined
  | .vFunc _ =>
    if key == "length" then .vNum 0
    else if key == "name" then .vStr "" else .vUndefined
  | _ => .vUndefined

/-- JS property access: a TypeError on null/undefined, defined elsewhere. -/
def getPropE (v : Value) (key : String) : Except String Value :=
  match v with
  | .vNull => .error "TypeError: cannot read properties of null"
  | .vUndefined => .error "TypeError: cannot read properties of undefined"
  | _ => .ok (getProp v key)

/-- Whether a value is the JS null literal (the `module !== null` test). -/
def isNullV : Value → Bool
  | .vNull => true
  | _ => false

/-! ## Validators (src/Validators/Validators.ts)

Each validator is translated twice: a fallible version (`...E`) in
`Except String`, evaluating the source expression with genuine JS
short-circuiting and throwing semantics, and a total Boolean version used by
the rest of the development.  The bridge lemmas below prove the fallible
versions never throw and agree with the total ones. -/

/-- `Validators.isCommand`, fallible translation.  Evaluates
`!!(module && typeof module === "object" && "name" in module &&
"description" in module && "action" in module &&
typeof module.action === "function")` with JS short-circuit order. -/
def isCommandE (m : Value) : Except String Bool := do
  if !truthy m then return false
  if !(jsTypeof m == "object") then return false
  let hn ← jsInE "name" m
  if !hn then return false
  let hd ← jsInE "description" m
  if !hd then return false
  let ha ← jsInE "action" m
  if !ha then return false
  let act ← getPropE m "action"
  return jsTypeof act == "function"

/-- `Validators.isCommand`, total Boolean translation. -/
def isCommand (m : Value) : Bool :=
  truthy m && jsTypeof m == "object" && hasIn m "name" &&
    hasIn m "description" && hasIn m "action" &&
    jsTypeof (getProp m "action") == "function"

/-- `Validators.isEvent`, fallible translation of
`!!(module && typeof module === "object" && module !== null &&
typeof module.event === "string" && (typeof module.once === "boolean" ||
typeof module.once === "undefined") && typeof module.action === "function")`. -/
def isEventE (m : Value) : Except String Bool := do
  if !truthy m then return false
  if !(jsTypeof m == "object") then return false
  if isNullV m then return false
  let ev ← getPropE m "event"
  if !(jsTypeof ev == "string") then return false
  let onceV ← getPropE m "once"
  if !(jsTypeof onceV == "boolean" || jsTypeof onceV == "undefined") then return false
  let act ← getPropE m "action"
  return jsTypeof act == "function"

/-- `Validators.isEvent`, total Boolean translation. -/
def isEvent (m : Value) : Bool :=
  truthy m && jsTypeof m == "object" && !isNullV m &&
    jsTypeof (getProp m "event") == "string" &&
    (jsTypeof (getProp m "once") == "boolean" ||
      jsTypeof (getProp m "once") == "undefined") &&
    jsTypeof (getProp m "action") == "function"

/-- `Validators.isPluginConfig`, fallible translation: guard
`!config || typeof config !== "object"`, then the `requiredFields` loop
(`"name" in config`, `"version" in config`), then the string checks on
`name`/`version`, then the optional `description`/`config` checks. -/
def isPluginConfigE (config : Value) : Except String Bool := do
  if !truthy config || !(jsTypeof config == "object") then return false
  let hn ← jsInE "name" config
  if !hn then return false
  let hv ← jsInE "version" config
  if !hv then return false
  let nm ← getPropE config "name"
  let vsn ← getPropE config "version"
  if !(jsTypeof nm == "string") || !(jsTypeof vsn == "string") then return false
  let desc ← getPropE config "description"
  let cfg ← getPropE config "config"
  return (jsTypeof desc == "string" || jsTypeof desc == "undefined") &&
    (jsTypeof cfg == "object" || jsTypeof cfg == "undefined")

/-- `Validators.isPluginConfig`, total Boolean translation. -/
def isPluginConfig (config : Value) : Bool :=
  truthy config && jsTypeof config == "object" &&
    hasIn config "name" && hasIn config "version" &&
    jsTypeof (getProp config "name") == "string" &&
    jsTypeof (getProp config "version") == "string" &&
    (jsTypeof (getProp config "description") == "string" ||
      jsTypeof (getProp config "description") == "undefined") &&
    (jsTypeof (getProp config "config") == "object" ||
      jsTypeof (getProp config "config") == "undefined")

/-- The predicate claim C1 states for `isCommand`, following the spec's
words: a non-null object value whose `name` and `description` are
string-typed and whose `action` is function-typed. -/
def isCommandSpecClaim (v : Value) : Bool :=
  truthy v && jsTypeof v == "object" &&
    jsTypeof (getProp v "name") == "string" &&
    jsTypeof (getProp v "description") == "string" &&
    jsTypeof (getProp v "action") == "function"

/-- A value with `name` and `description` members that are numbers, not
strings, and a function-typed `action`. -/
def numericNameCommand : Value :=
  .vObj [("name", .vNum 1), ("description", .vNum 2), ("action", .vFunc 0)]

/-! ## ModuleLoader (src/Utils/ModuleLoader.ts) -/

/-- A directory entry as produced by `Deno.readDir` / `Deno.lstat`. -/
structure FsEntry where
  name : String
  isFile : Bool
  isDirectory : Bool
deriving Repr, DecidableEq

/-- JS `s.startsWith(p)` (computable list form of `String.startsWith`). -/
def strStartsWith (s p : String) : Bool :=
  s.toList.take p.toList.length == p.toList

/-- JS `s.endsWith(p)` (computable list form of `String.endsWith`). -/
def strEndsWith (s p : String) : Bool :=
  decide (p.toList.length ≤ s.toList.length) &&
    s.toList.drop (s.toList.length - p.toList.length) == p.toList

/-- A `try`/`catch` block whose `catch` clause recovers with a value. -/
def catchWith (x : Except String α) (h : String → α) : Except String α :=
  match x with
  | .ok a => .ok a
  | .error e => .ok (h e)

/-- `ModuleLoader.loadModule`: prepend the `file://` scheme when absent (the
non-Windows branch of the path normalization), attempt the dynamic import,
and return the module's default export — or null when the import throws (the
`catch` branch).  `importAttempt` models `await import(p)` followed by
`.default`; an `Except` error is a throwing import. -/
def loadModule (importAttempt : String → Except String Value)
    (path : String) : Value :=
  let normalizedPath :=
    if strStartsWith path "file://" then path else "file://" ++ path
  match importAttempt normalizedPath with
  | .ok v => v
  | .error _ => .vNull

/-- The `for await` loop body of `loadModulesFromDirectory`: `acc` is the
`modules` array, pushed in enumeration order; only file entries named
`*.ts` are considered, and a loaded value is kept when it is truthy
(`module &&`) and accepted by the validator. -/
def collectModules (directory : String)
    (importAttempt : String → Except String Value) (validator : Value → Bool) :
    List FsEntry → List Value → List Value
  | [], acc => acc
  | entry :: rest, acc =>
    if entry.isFile && strEndsWith entry.name ".ts" then
      let loaded := loadModule importAttempt (directory ++ "/" ++ entry.name)
      if truthy loaded && validator loaded then
        collectModules directory importAttempt validator rest (acc ++ [loaded])
      else
        collectModules directory importAttempt validator rest acc
    else
      collectModules directory importAttempt validator rest acc

/-- `ModuleLoader.loadModulesFromDirectory`: enumerate the directory
(`readDir` models `Deno.readDir`, erring — before yielding any entry — when
the directory is missing or unreadable), run the loop, and catch any
enumeration failure, returning the modules collected so far (none, in this
model, since enumeration fails up front). -/
def loadModulesFromDirectory (readDir : String → Except String (List FsEntry))
    (importAttempt : String → Except String Value) (directory : String)
    (validator : Value → Bool) : Except String (List Value) :=
  catchWith
    (do
      let entries ← readDir directory
      return collectModules directory importAttempt validator entries [])
    (fun _ => [])

/-- The contribution of one directory entry to `loadModulesFromDirectory`:
the loaded value, when the entry is a `.ts` file whose loaded value is
truthy and passes the validator. -/
def collectedEntry (importAttempt : String → Except String Value)
    (directory : String) (validator : Value → Bool) (entry : FsEntry) :
    Option Value :=
  if entry.isFile && strEndsWith entry.name ".ts" then
    let loaded := loadModule importAttempt (directory ++ "/" ++ entry.name)
    if truthy loaded && validator loaded then some loaded else none
  else none

/-- The entries claim C2 says are kept, following the spec's words: each
`.ts` file entry whose import succeeds ("successfully loaded") and whose
loaded value passes the validator — with no truthiness requirement on the
loaded value. -/
def specLoadedPassingEntry (importAttempt : String → Except String Value)
    (directory : String) (validator : Value → Bool) (entry : FsEntry) :
    Option Value :=
  if entry.isFile && strEndsWith entry.name ".ts" then
    let path := directory ++ "/" ++ entry.name
    let normalizedPath :=
      if strStartsWith path "file://" then path else "file://" ++ path
    match importAttempt normalizedPath with
    | .ok v => if validator v then some v else none
    | .error _ => none
  else none

/-! ## PluginLoader (src/Utils/PluginLoader.ts) -/

/-- The filesystem and runtime environment a `PluginLoader` runs against. -/
structure PluginFS where
  cwd : String
  readDir : String → Except String (List FsEntry)
  readTextFile : String → Except String String
  parseYaml : String → Except String Value
  lstat : String → Except String FsEntry
  importAttempt : String → Except String Value

/-- `private readonly PluginsDir = Deno.cwd() + "/plugins"`. -/
def PluginsDir (fs : PluginFS) : String := fs.cwd ++ "/plugins"

/-- The `PluginConfig` record as built by `LoadPluginConfig`; the fields are
JS values (the validator guarantees `name` and `version` are strings). -/
structure PluginConfig where
  name : Value
  version : Value
  description : Value
  config : Value
deriving Repr

/-- A loaded plugin as assembled by `LoadPluginFiles`: the config plus the
raw validated command and event module values. -/
structure LoadedPlugin where
  config : PluginConfig
  commands : List Value
  events : List Value
deriving Repr

/-- JS nullish coalescing `a ?? b`. -/
def coalesce (a b : Value) : Value :=
  match a with
  | .vNull => b
  | .vUndefined => b
  | _ => a

/-- `PluginLoader.LoadPluginConfig`: read `blitz.config.yaml`, parse it,
validate with `Validators.isPluginConfig` (null on rejection), and apply the
`??` defaults; any read or parse exception is caught and yields null. -/
def LoadPluginConfig (fs : PluginFS) (pluginPath : String) :
    Except String (Option PluginConfig) :=
  let configPath := pluginPath ++ "/blitz.config.yaml"
  catchWith
    (do
      let rawConfig ← fs.readTextFile configPath
      let parsedConfig ← fs.parseYaml rawConfig
      if !isPluginConfig parsedConfig then
        return none
      else
        return some
          { name := coalesce (getProp parsedConfig "name") (.vStr "unknown")
            version :=
              coalesce (getProp parsedConfig "version") (.vStr "unknown")
            description :=
              coalesce (getProp parsedConfig "description")
                (.vStr "No description provided")
            config := coalesce (getProp parsedConfig "config") (.vObj []) })
    (fun _ => none)

/-- `PluginLoader.LoadPluginModules`: a missing or non-directory module path
is silently treated as empty; otherwise delegate to
`ModuleLoader.loadModulesFromDirectory`, catching any failure as empty. -/
def LoadPluginModules (fs : PluginFS) (modulePath : String)
    (validator : Value → Bool) : Except String (List Value) :=
  match fs.lstat modulePath with
  | .error _ => .ok []
  | .ok stats =>
    if !stats.isDirectory then .ok []
    else
      catchWith
        (loadModulesFromDirectory fs.readDir fs.importAttempt modulePath
          validator)
        (fun _ => [])

/-- `PluginLoader.LoadPluginFiles`: load the config — skipping the plugin
(null) when the config is null — then the `commands` and `events` modules
with their validators; any escaping exception is caught and the plugin is
skipped. -/
def LoadPluginFiles (fs : PluginFS) (pluginName : String) :
    Except String (Option LoadedPlugin) :=
  let pluginPath := PluginsDir fs ++ "/" ++ pluginName
  catchWith
    (do
      let config? ← LoadPluginConfig fs pluginPath
      match config? with
      | none => return none
      | some config => do
        let commands ←
          LoadPluginModules fs (pluginPath ++ "/commands") isCommand
        let events ← LoadPluginModules fs (pluginPath ++ "/events") isEvent
        return some { config := config, commands := commands, events := events })
    (fun _ => none)

/-- `PluginLoader.GetPluginDirectories`: the names of the directory entries
of the plugins root; an enumeration failure is caught and the directories
collected so far (none, in this model) are returned. -/
def GetPluginDirectories (fs : PluginFS) : Except String (List String) :=
  catchWith
    (do
      let entries ← fs.readDir (PluginsDir fs)
      return (entries.filter (fun e => e.isDirectory)).map (fun e => e.name))
    (fun _ => [])

/-- `PluginLoader.LoadPlugins`: enumerate the plugin directories, load each
(`Promise.all` over independent directories, modelled sequentially), drop
the nulls, and catch any critical failure as the empty list. -/
def LoadPlugins (fs : PluginFS) : Except String (List LoadedPlugin) :=
  catchWith
    (do
      let pluginDirs ← GetPluginDirectories fs
      let loadedPlugins ← pluginDirs.mapM (fun d => LoadPluginFiles fs d)
      return loadedPlugins.filterMap id)
    (fun _ => [])

/-- The three claim C7 failure cases for a plugin's metadata file: the file
cannot be read (missing), the YAML parse throws (unparseable), or the parsed
value is rejected by the config validator. -/
def badMetadata (fs : PluginFS) (pluginName : String) : Prop :=
  let configPath :=
    PluginsDir fs ++ "/" ++ pluginName ++ "/blitz.config.yaml"
  (∃ e, fs.readTextFile configPath = .error e) ∨
    (∃ raw e, fs.readTextFile configPath = .ok raw ∧
      fs.parseYaml raw = .error e) ∨
    (∃ raw parsed, fs.readTextFile configPath = .ok raw ∧
      fs.parseYaml raw = .ok parsed ∧ isPluginConfig parsed = false)

/-! ## Bot (src/Bot.ts)

The Bot layer works with the typed records of `src/Types/Plugin.ts`
(`Command`, `Event`, `Plugin`); action callbacks are abstracted to
identifiers and their invocation is recorded as an explicit effect. -/

/-- `Command` of src/Types/Plugin.ts; the action callback is abstracted to
an identifier. -/
structure Command where
  name : String
  description : String
  action : Nat
deriving Repr, DecidableEq

/-- `Event` of src/Types/Plugin.ts (`once` is optional). -/
structure Event where
  event : String
  once : Option Bool
  action : Nat
deriving Repr, DecidableEq

/-- `Plugin` of src/Types/Plugin.ts; `config.config` is the plugin's own
configuration mapping, an arbitrary JS value. -/
structure Plugin where
  config : PluginConfig
  commands : List Command
  events : List Event
deriving Repr

/-- `Collection.set` of the string-keyed command registry: overwrite the
value in place when the key exists, append otherwise (Map semantics). -/
def setEntry (reg : List (String × Command)) (k : String) (v : Command) :
    List (String × Command) :=
  if reg.any (fun p => p.1 == k) then
    reg.map (fun p => if p.1 == k then (k, v) else p)
  else reg ++ [(k, v)]

/-- `Collection.get` on the registry. -/
def getEntry (reg : List (String × Command)) (k : String) : Option Command :=
  (reg.find? (fun p => p.1 == k)).map (fun p => p.2)

/-- The registry merge of `Bot.loadPlugins`: for each plugin in order, for
each of its commands in order, `this.commands.set(command.name, command)` —
a later command with the same name overwrites the earlier one. -/
def mergeCommands (plugins : List Plugin) : List (String × Command) :=
  plugins.foldl
    (fun reg p => p.commands.foldl (fun r c => setEntry r c.name c) reg) []

/-- The slice of a `ChatInputCommandInteraction` the dispatcher reads. -/
structure Interaction where
  isChatInputCommand : Bool
  commandName : String
  replied : Bool
  deferred : Bool
deriving Repr, DecidableEq

/-- The observable effects of the `interactionCreate` handler. -/
inductive Effect where
  | warnNotFound (name : String)
  | invokeAction (action : Nat) (i : Interaction) (config : Value)
  | logError (name : String)
  | followUp (content : String) (ephemeral : Bool)
  | reply (content : String) (ephemeral : Bool)
deriving Repr

/-- The generic failure notice content. -/
def errorContent : String := "There was an error executing this command!"

/-- `this.plugins.find((p) => p.commands.some((cmd) => cmd.name ===
interaction.commandName))`: the first loaded plugin declaring a command with
the given name. -/
def firstOwner (plugins : List Plugin) (name : String) : Option Plugin :=
  plugins.find? (fun p => p.commands.any (fun cmd => cmd.name == name))

/-- The `interactionCreate` handler of `Bot.registerEventHandlers`:
non-chat-input interactions are ignored; an unregistered name logs a
warning; otherwise the registered command's action is invoked with the
client, the interaction and the config of the first plugin owning a command
of that name.  When `actionThrows` says the action throws, the `catch`
block logs the error and sends one ephemeral failure notice — a follow-up
when the interaction was already replied or deferred, a direct reply
otherwise. -/
def dispatch (plugins : List Plugin) (reg : List (String × Command))
    (actionThrows : Nat → Bool) (i : Interaction) : List Effect :=
  if !i.isChatInputCommand then []
  else
    match getEntry reg i.commandName with
    | none => [.warnNotFound i.commandName]
    | some command =>
      match firstOwner plugins i.commandName with
      | none => []
      | some plugin =>
        if actionThrows command.action then
          [.invokeAction command.action i plugin.config.config,
            .logError i.commandName,
            if i.replied || i.deferred then .followUp errorContent true
            else .reply errorContent true]
        else
          [.invokeAction command.action i plugin.config.config]

/-- The dispatch loop: one `interactionCreate` handler run per inbound
interaction, in order. -/
def dispatchAll (plugins : List Plugin) (reg : List (String × Command))
    (actionThrows : Nat → Bool) (inbound : List Interaction) :
    List (List Effect) :=
  inbound.map (dispatch plugins reg actionThrows)

/-- Whether an effect is a user-visible notice (a reply or a follow-up). -/
def isNotice : Effect → Bool
  | .followUp _ _ => true
  | .reply _ _ => true
  | _ => false

/-- Number of user-visible notices in an effect trace. -/
def countNotices (effects : List Effect) : Nat := effects.countP isNotice

/-- The request body built by `Bot.registerCommands`:
`this.plugins.flatMap((plugin) => plugin.commands.map(...))` — for every
plugin, for every one of its commands, a builder with the command's name and
description. -/
def registerCommandsBody (plugins : List Plugin) : List (String × String) :=
  plugins.flatMap
    (fun p => p.commands.map (fun cmd => (cmd.name, cmd.description)))

/-- `rest.put(Routes.applicationCommands(...), body)`: a full replacement
of the remote command set, ignoring its previous contents. -/
def restPut (_remote : List (String × String))
    (body : List (String × String)) : List (String × String) :=
  body

/-- `Bot.registerCommands`: abort (leaving the remote set unchanged) when
the client user is unavailable, otherwise replace the remote set with the
built body. -/
def registerCommands (clientUserPresent : Bool) (plugins : List Plugin)
    (remote : List (String × String)) : List (String × String) :=
  if !clientUserPresent then remote
  else restPut remote (registerCommandsBody plugins)

/-- The (name, description) pairs held by the merged registry. -/
def registryPairs (reg : List (String × Command)) : List (String × String) :=
  reg.map (fun p => (p.2.name, p.2.description))

/-- One client event-bus subscription made by `Bot.registerEventHandlers`:
the event name, whether `client.once` (single-shot) or `client.on`
(recurring) was used, and the data the wrapped handler closes over. -/
structure Subscription where
  event : String
  once : Bool
  action : Nat
  config : Value
deriving Repr

/-- What a wrapped handler does when the event fires with `args`. -/
inductive EventEffect where
  | invokeEvent (action : Nat) (config : Value) (args : List Value)
deriving Repr

/-- The wrapped handler `(...args) => event.action(this.client,
plugin.config.config, ...args)`. -/
def runHandler (s : Subscription) (args : List Value) : EventEffect :=
  .invokeEvent s.action s.config args

/-- The subscriptions made by the second half of `registerEventHandlers`:
one per event record of each plugin, single-shot precisely when
`event.once` is truthy (`if (event.once)`). -/
def eventSubscriptions (plugins : List Plugin) : List Subscription :=
  plugins.flatMap
    (fun plugin =>
      plugin.events.map
        (fun e =>
          { event := e.event, once := e.once.getD false, action := e.action,
            config := plugin.config.config }))

/-- The (plugin config, event record) pairs declared by the loaded plugins,
in order. -/
def pluginEventPairs (plugins : List Plugin) : List (Value × Event) :=
  plugins.flatMap
    (fun plugin => plugin.events.map (fun e => (plugin.config.config, e)))

/-- The mutable state of a `Bot` and its client that `start` touches. -/
structure BotState where
  clientToken : Option String
  loggedIn : Bool
  plugins : List Plugin
  commands : List (String × Command)
  subscriptions : List Subscription
deriving Repr

/-- `await this.loadPlugins()` during `start`: store the loaded plugins and
merge their commands into the registry. -/
def loadPluginsStep (loaded : List Plugin) (s : BotState) : BotState :=
  { s with plugins := loaded, commands := mergeCommands loaded }

/-- `this.registerEventHandlers()`: attach the event-bus handlers. -/
def registerEventHandlersStep (s : BotState) : BotState :=
  { s with subscriptions := eventSubscriptions s.plugins }

/-- `await this.client.login(this.token)`: the client retains the token. -/
def loginStep (token : String) (s : BotState) : BotState :=
  { s with clientToken := some token, loggedIn := true }

/-- `(this.client as any).token = undefined`, the last line of `start`. -/
def clearClientToken (s : BotState) : BotState :=
  { s with clientToken := none }

/-- `Bot.start`: load plugins, register handlers, log in, then clear the
token stored on the client object. -/
def start (loaded : List Plugin) (token : String) (s : BotState) : BotState :=
  clearClientToken
    (loginStep token (registerEventHandlersStep (loadPluginsStep loaded s)))

/-- Plugin A of the duplicate-command-name scenario: declares command
`ping` with action 1. -/
def pingA : Command := { name := "ping", description := "from plugin A", action := 1 }

/-- Plugin B's `ping` command, action 2. -/
def pingB : Command := { name := "ping", description := "from plugin B", action := 2 }

/-- Plugin A's own config mapping. -/
def configA : Value := .vObj [("greeting", .vStr "A")]

/-- Plugin B's own config mapping. -/
def configB : Value := .vObj [("greeting", .vStr "B")]

/-- Plugin A: loaded first, declares `ping`. -/
def pluginA : Plugin :=
  { config := { name := .vStr "A", version := .vStr "1.0",
                description := .vStr "first", config := configA },
    commands := [pingA], events := [] }

/-- Plugin B: loaded second, also declares `ping`. -/
def pluginB : Plugin :=
  { config := { name := .vStr "B", version := .vStr "1.0",
                description := .vStr "second", config := configB },
    commands := [pingB], events := [] }

/-- A chat-input invocation of `ping`, not yet replied nor deferred. -/
def pingInteraction : Interaction :=
  { isChatInputCommand := true, commandName := "ping",
    replied := false, deferred := false }

/-- An action behaviour where no action throws. -/
def noThrow : Nat → Bool := fun _ => false

/-- An action behaviour where every action throws. -/
def allThrow : Nat → Bool := fun _ => true

/-- A singleton directory listing holding one file entry, `a.ts`. -/
def singleTsListing : List FsEntry :=
  [{ name := "a.ts", isFile := true, isDirectory := false }]

/-- An import attempt whose default export is the falsy number 0. -/
def zeroExportImport : String → Except String Value := fun _ => .ok (.vNum 0)

/-- A validator accepting every value. -/
def acceptAll : Value → Bool := fun _ => true

/-- A well-formed command module value. -/
def helloCommandVal : Value :=
  .vObj [("name", .vStr "hello"), ("description", .vStr "greets"),
    ("action", .vFunc 3)]

/-- An import attempt always yielding `helloCommandVal`. -/
def helloImport : String → Except String Value := fun _ => .ok helloCommandVal

/-- A plugin filesystem whose plugins root cannot be enumerated. -/
def brokenRootFS : PluginFS :=
  { cwd := "/app"
    readDir := fun _ => .error "ENOENT"
    readTextFile := fun _ => .error "ENOENT"
    parseYaml := fun _ => .error "unused"
    lstat := fun _ => .error "ENOENT"
    importAttempt := fun _ => .error "unused" }

/-- A plugin filesystem where the `greet` plugin directory exists but its
metadata file is missing. -/
def missingConfigFS : PluginFS :=
  { cwd := "/app"
    readDir := fun p =>
      if p == "/app/plugins" then
        .ok [{ name := "greet", isFile := false, isDirectory := true }]
      else .error "ENOENT"
    readTextFile := fun _ => .error "No such file or directory"
    parseYaml := fun _ => .error "unused"
    lstat := fun _ => .error "ENOENT"
    importAttempt := fun _ => .error "unused" }

/-- An event record with a truthy `once`. -/
def readyEvent : Event := { event := "ready", once := some true, action := 7 }

/-- A plugin declaring one event and no commands. -/
def pluginE : Plugin :=
  { config := { name := .vStr "E", version := .vStr "1.0",
                description := .vStr "events only", config := configA },
    commands := [], events := [readyEvent] }

end BlitzBot

namespace BlitzBot

theorem isCommandE_ok (m : Value) : isCommandE m = .ok (isCommand m) := by
  cases m <;>
    simp only [isCommandE, isCommand, truthy, jsTypeof, jsInE, getPropE,
      bind, Except.bind, pure, Except.pure] <;>
    split_ifs <;> simp_all

theorem isEventE_ok (m : Value) : isEventE m = .ok (isEvent m) := by
  cases m <;>
    simp only [isEventE, isEvent, truthy, jsTypeof, isNullV, getPropE,
      bind, Except.bind, pure, Except.pure] <;>
    split_ifs <;> (try simp_all) <;> (try tauto)

theorem isPluginConfigE_ok (m : Value) :
    isPluginConfigE m = .ok (isPluginConfig m) := by
  cases m <;>
    simp only [isPluginConfigE, isPluginConfig, truthy, jsTypeof, jsInE,
      getPropE, bind, Except.bind, pure, Except.pure] <;>
    split_ifs <;> (try simp_all) <;> (try tauto)

theorem jsTypeof_eq_function_iff (w : Value) :
    jsTypeof w = "function" ↔ ∃ f, w = Value.vFunc f := by
  cases w <;> simp [jsTypeof]

theorem length_filterMap_eq_countP (f : α → Option β) (l : List α) :
    (l.filterMap f).length = l.countP fun a => (f a).isSome := by
  induction l with
  | nil => rfl
  | cons a l ih =>
    cases h : f a <;>
      simp [List.filterMap_cons, List.countP_cons, h, ih]

theorem collectModules_eq_filterMap (directory : String)
    (importAttempt : String → Except String Value) (validator : Value → Bool)
    (entries : List FsEntry) (acc : List Value) :
    collectModules directory importAttempt validator entries acc =
      acc ++ entries.filterMap (collectedEntry importAttempt directory validator) := by
  induction entries generalizing acc with
  | nil => simp [collectModules]
  | cons entry rest ih =>
    simp only [collectModules, collectedEntry, List.filterMap_cons]
    split_ifs <;> simp [ih]

/-- C1 counterexample: `Validators.isCommand` accepts a value whose `name`
and `description` members are number-typed, while the claimed
characterisation (string-typed `name` and `description`) rejects it, so the
claimed equivalence fails at `numericNameCommand`. -/
theorem isCommand_accepts_nonstring_name :
    isCommand numericNameCommand = true ∧
      isCommandSpecClaim numericNameCommand = false :=
  ⟨rfl, rfl⟩

/-- C1 (amended): for every value v, `Validators.isCommand v` is true iff v
is a truthy object-typed value that has `name`, `description` and `action`
members with a function-typed `action` — the types of `name` and
`description` are not checked. -/
theorem isCommand_checks_member_presence_not_types (v : Value) :
    isCommand v = true ↔
      (truthy v = true ∧ jsTypeof v = "object" ∧ hasIn v "name" = true ∧
        hasIn v "description" = true ∧ hasIn v "action" = true ∧
        ∃ f, getProp v "action" = Value.vFunc f) := by
  simp only [isCommand, Bool.and_eq_true, beq_iff_eq, and_assoc,
    ← jsTypeof_eq_function_iff]

/-- C8: each of the three validators is a total function: evaluating its
body on any value — null, undefined, a boolean, a number, a string, a
function, an object or an array — terminates without raising a TypeError
and returns the boolean computed by the total translation. -/
theorem validators_total (v : Value) :
    isCommandE v = .ok (isCommand v) ∧ isEventE v = .ok (isEvent v) ∧
      isPluginConfigE v = .ok (isPluginConfig v) :=
  ⟨isCommandE_ok v, isEventE_ok v, isPluginConfigE_ok v⟩

/-- C2 counterexample: a `.ts` entry whose import succeeds with the falsy
default export `0` and a validator that accepts everything: the loader
returns the empty sequence although the spec-described collection (all
successfully loaded values passing the validator) holds that value, so the
claimed characterisation and length equation fail here. -/
theorem loadModulesFromDirectory_drops_falsy_loaded_module :
    loadModulesFromDirectory (fun _ => .ok singleTsListing) zeroExportImport
        "cmds" acceptAll = .ok [] ∧
      singleTsListing.filterMap
          (specLoadedPassingEntry zeroExportImport "cmds" acceptAll) =
        [Value.vNum 0] :=
  ⟨rfl, rfl⟩

/-- C2 (amended): for every enumerable directory, importer and validator,
`loadModulesFromDirectory` returns exactly the loaded primary-export values
that are truthy and pass the validator, in directory-enumeration order,
considering only direct `.ts` file entries; load failures, falsy exports
and validation failures are excluded, and the result length equals the
count of passing entries. -/
theorem loadModulesFromDirectory_collects_truthy_validated
    (readDir : String → Except String (List FsEntry))
    (importAttempt : String → Except String Value) (validator : Value → Bool)
    (directory : String) (entries : List FsEntry)
    (h : readDir directory = .ok entries) :
    loadModulesFromDirectory readDir importAttempt directory validator =
      .ok (entries.filterMap
        (collectedEntry importAttempt directory validator)) ∧
      (entries.filterMap
          (collectedEntry importAttempt directory validator)).length =
        entries.countP
          (fun e => (collectedEntry importAttempt directory validator e).isSome) := by
  constructor
  · simp [loadModulesFromDirectory, h, catchWith, bind, Except.bind,
      pure, Except.pure, collectModules_eq_filterMap]
  · exact length_filterMap_eq_countP _ _

/-- C2 witness: the amended theorem evaluated on a concrete directory with
one well-formed command module. -/
theorem loadModulesFromDirectory_collects_truthy_validated_witness :
    loadModulesFromDirectory (fun _ => .ok singleTsListing) helloImport
        "cmds" isCommand =
      .ok (singleTsListing.filterMap
        (collectedEntry helloImport "cmds" isCommand)) ∧
      (singleTsListing.filterMap
          (collectedEntry helloImport "cmds" isCommand)).length =
        singleTsListing.countP
          (fun e => (collectedEntry helloImport "cmds" isCommand e).isSome) :=
  loadModulesFromDirectory_collects_truthy_validated _ _ _ _ _ rfl

theorem catchWith_exists_ok (x : Except String α) (h : String → α) :
    ∃ a, catchWith x h = .ok a := by
  cases x with
  | ok a => exact ⟨a, rfl⟩
  | error e => exact ⟨h e, rfl⟩

/-- C6: `PluginLoader.LoadPlugins` never raises to its caller: on every
filesystem state it evaluates to a (possibly empty) sequence of plugins,
and a failure enumerating the plugins root itself yields the empty
sequence. -/
theorem LoadPlugins_never_raises (fs : PluginFS) :
    (∃ plugins, LoadPlugins fs = .ok plugins) ∧
      ∀ e, fs.readDir (PluginsDir fs) = .error e →
        LoadPlugins fs = .ok [] := by
  constructor
  · exact catchWith_exists_ok _ _
  · intro e he
    simp [LoadPlugins, GetPluginDirectories, he, catchWith, bind,
      Except.bind, pure, Except.pure, List.mapM, List.mapM.loop]

/-- C6 witness: `LoadPlugins` on a filesystem whose plugins root is
missing. -/
theorem LoadPlugins_never_raises_witness :
    (∃ plugins, LoadPlugins brokenRootFS = .ok plugins) ∧
      LoadPlugins brokenRootFS = .ok [] :=
  ⟨(LoadPlugins_never_raises brokenRootFS).1,
    (LoadPlugins_never_raises brokenRootFS).2 "ENOENT" rfl⟩

/-- C7: for every plugin directory whose metadata file is missing,
unparseable, or rejected by the config validator, the loader applies the
skip policy: `LoadPluginFiles` evaluates — without raising — to null, so
the plugin contributes nothing, and `LoadPlugins` itself still evaluates to
a plugin list without raising. -/
theorem bad_metadata_plugin_skipped (fs : PluginFS) (pluginName : String)
    (h : badMetadata fs pluginName) :
    LoadPluginFiles fs pluginName = .ok none ∧
      ∃ plugins, LoadPlugins fs = .ok plugins := by
  refine ⟨?_, catchWith_exists_ok _ _⟩
  have hconf :
      LoadPluginConfig fs (PluginsDir fs ++ "/" ++ pluginName) = .ok none := by
    rcases h with ⟨e, he⟩ | ⟨raw, e, hraw, he⟩ | ⟨raw, parsed, hraw, hp, hval⟩
    · simp [LoadPluginConfig, he, catchWith, bind, Except.bind]
    · simp [LoadPluginConfig, hraw, he, catchWith, bind, Except.bind]
    · simp [LoadPluginConfig, hraw, hp, hval, catchWith, bind, Except.bind,
        pure, Except.pure]
  simp [LoadPluginFiles, hconf, catchWith, bind, Except.bind, pure,
    Except.pure]

/-- C7 witness: the `greet` plugin directory with no readable metadata
file. -/
theorem bad_metadata_plugin_skipped_witness :
    LoadPluginFiles missingConfigFS "greet" = .ok none ∧
      ∃ plugins, LoadPlugins missingConfigFS = .ok plugins :=
  bad_metadata_plugin_skipped missingConfigFS "greet"
    (Or.inl ⟨"No such file or directory", rfl⟩)

theorem mem_setEntry {reg : List (String × Command)} {k : String}
    {v : Command} {e : String × Command} (h : e ∈ setEntry reg k v) :
    e ∈ reg ∨ e = (k, v) := by
  unfold setEntry at h
  split at h
  · obtain ⟨x, hx, hfx⟩ := List.mem_map.mp h
    by_cases hk : (x.1 == k) = true
    · rw [if_pos hk] at hfx
      exact Or.inr hfx.symm
    · rw [if_neg hk] at hfx
      exact Or.inl (hfx ▸ hx)
  · rcases List.mem_append.mp h with h' | h'
    · exact Or.inl h'
    · exact Or.inr (List.mem_singleton.mp h')

theorem mem_foldl_setEntry :
    ∀ (cs : List Command) (reg : List (String × Command))
      (e : String × Command),
      e ∈ cs.foldl (fun r c => setEntry r c.name c) reg →
        e ∈ reg ∨ ∃ c ∈ cs, e.1 = c.name := by
  intro cs
  induction cs with
  | nil => intro reg e h; exact Or.inl h
  | cons c cs ih =>
    intro reg e h
    rcases ih (setEntry reg c.name c) e h with h' | ⟨c', hc', hn⟩
    · rcases mem_setEntry h' with h'' | h''
      · exact Or.inl h''
      · exact Or.inr ⟨c, List.mem_cons_self c cs, by rw [h'']⟩
    · exact Or.inr ⟨c', List.mem_cons_of_mem c hc', hn⟩

theorem mergeCommands_eq_foldl (plugins : List Plugin) :
    mergeCommands plugins =
      (plugins.flatMap (fun p => p.commands)).foldl
        (fun r c => setEntry r c.name c) [] := by
  rw [mergeCommands, List.flatMap_def, List.foldl_flatten, List.foldl_map]

theorem firstOwner_isSome_of_getEntry {plugins : List Plugin} {k : String}
    {command : Command}
    (h : getEntry (mergeCommands plugins) k = some command) :
    ∃ plugin, firstOwner plugins k = some plugin := by
  rw [getEntry, Option.map_eq_some'] at h
  obtain ⟨pr, hfind, _⟩ := h
  have hmem := List.mem_of_find?_eq_some hfind
  have hkey : pr.1 = k := by simpa using List.find?_some hfind
  rw [mergeCommands_eq_foldl] at hmem
  rcases mem_foldl_setEntry _ _ _ hmem with h' | ⟨c, hc, hn⟩
  · simp at h'
  · obtain ⟨plugin, hp, hcp⟩ := List.mem_flatMap.mp hc
    rw [← Option.isSome_iff_exists, firstOwner, List.find?_isSome]
    refine ⟨plugin, hp, ?_⟩
    rw [List.any_eq_true]
    exact ⟨c, hcp, by simp [← hn, hkey]⟩

/-- C3 counterexample: plugins A and B both declare a command named `ping`.
The merged registry keeps B's command (last write wins), which only plugin
B owns, and B's config mapping differs from A's; yet dispatching `ping`
invokes the registered action with plugin A's config mapping — not the
config of the plugin that owns the registered command, refuting the claim
in the duplicate-name case it quantifies over. -/
theorem dispatch_config_owner_mismatch_on_duplicate :
    getEntry (mergeCommands [pluginA, pluginB]) "ping" = some pingB ∧
      pingB ∈ pluginB.commands ∧ pingB ∉ pluginA.commands ∧
      pluginB.config.config = configB ∧
      dispatch [pluginA, pluginB] (mergeCommands [pluginA, pluginB]) noThrow
          pingInteraction =
        [.invokeAction pingB.action pingInteraction configA] ∧
      configA ≠ configB := by
  refine ⟨rfl, by decide, by decide, rfl, rfl, ?_⟩
  simp [configA, configB]

/-- C3 (amended): for every chat-input invocation whose command name is in
the merged registry, the dispatcher invokes the registered command's action
with the client, the invocation context and the config mapping of the
FIRST loaded plugin that declares a command of that name.  When at most one
plugin declares the name this is the owning plugin's config; when two
plugins share the name, the registry holds the later plugin's command while
the config comes from the earlier plugin. -/
theorem dispatch_uses_first_declaring_plugin_config (plugins : List Plugin)
    (actionThrows : Nat → Bool) (i : Interaction) (command : Command)
    (h1 : i.isChatInputCommand = true)
    (h2 : getEntry (mergeCommands plugins) i.commandName = some command) :
    ∃ plugin, firstOwner plugins i.commandName = some plugin ∧
      (dispatch plugins (mergeCommands plugins) actionThrows i).head? =
        some (.invokeAction command.action i plugin.config.config) := by
  obtain ⟨plugin, hp⟩ := firstOwner_isSome_of_getEntry h2
  refine ⟨plugin, hp, ?_⟩
  cases hT : actionThrows command.action <;>
    simp [dispatch, h1, h2, hp, hT]

/-- C3 witness: the amended theorem evaluated on a single plugin declaring
`ping`. -/
theorem dispatch_uses_first_declaring_plugin_config_witness :
    ∃ plugin, firstOwner [pluginA] pingInteraction.commandName = some plugin ∧
      (dispatch [pluginA] (mergeCommands [pluginA]) noThrow
          pingInteraction).head? =
        some (.invokeAction pingA.action pingInteraction
          plugin.config.config) :=
  dispatch_uses_first_declaring_plugin_config [pluginA] noThrow
    pingInteraction pingA rfl rfl

/-- C4: for every registered command whose action throws during dispatch,
the handler produces exactly the trace: the action invocation (with client,
invocation context and recovered plugin config), one error log carrying the
command name, and exactly one ephemeral failure notice — a follow-up when
the invocation was already replied or deferred, a direct reply otherwise —
and the dispatch loop goes on to serve every subsequent invocation. -/
theorem dispatch_throwing_action_single_ephemeral_notice
    (plugins : List Plugin) (reg : List (String × Command))
    (actionThrows : Nat → Bool) (i : Interaction) (command : Command)
    (plugin : Plugin) (h1 : i.isChatInputCommand = true)
    (h2 : getEntry reg i.commandName = some command)
    (h3 : firstOwner plugins i.commandName = some plugin)
    (h4 : actionThrows command.action = true) :
    dispatch plugins reg actionThrows i =
      [.invokeAction command.action i plugin.config.config,
        .logError i.commandName,
        if i.replied || i.deferred then .followUp errorContent true
        else .reply errorContent true] ∧
      countNotices (dispatch plugins reg actionThrows i) = 1 ∧
      ∀ rest, dispatchAll plugins reg actionThrows (i :: rest) =
        dispatch plugins reg actionThrows i ::
          dispatchAll plugins reg actionThrows rest := by
  have hd : dispatch plugins reg actionThrows i =
      [.invokeAction command.action i plugin.config.config,
        .logError i.commandName,
        if i.replied || i.deferred then .followUp errorContent true
        else .reply errorContent true] := by
    simp [dispatch, h1, h2, h3, h4]
  refine ⟨hd, ?_, fun rest => rfl⟩
  rw [hd]
  cases hrd : (i.replied || i.deferred) <;>
    simp [hrd, countNotices, isNotice, List.countP_cons]

/-- C4 witness: a throwing `ping` action on a fresh (neither replied nor
deferred) invocation. -/
theorem dispatch_throwing_action_single_ephemeral_notice_witness :
    dispatch [pluginB] (mergeCommands [pluginB]) allThrow pingInteraction =
      [.invokeAction pingB.action pingInteraction pluginB.config.config,
        .logError pingInteraction.commandName,
        if pingInteraction.replied || pingInteraction.deferred then
          .followUp errorContent true
        else .reply errorContent true] ∧
      countNotices
          (dispatch [pluginB] (mergeCommands [pluginB]) allThrow
            pingInteraction) = 1 ∧
      ∀ rest, dispatchAll [pluginB] (mergeCommands [pluginB]) allThrow
          (pingInteraction :: rest) =
        dispatch [pluginB] (mergeCommands [pluginB]) allThrow
            pingInteraction ::
          dispatchAll [pluginB] (mergeCommands [pluginB]) allThrow rest :=
  dispatch_throwing_action_single_ephemeral_notice [pluginB]
    (mergeCommands [pluginB]) allThrow pingInteraction pingB pluginB
    rfl rfl rfl rfl

theorem foldl_setEntry_append :
    ∀ (cs : List Command) (reg : List (String × Command)),
      (∀ c ∈ cs, ∀ pr ∈ reg, pr.1 ≠ c.name) →
      (cs.map (fun c => c.name)).Nodup →
      cs.foldl (fun r c => setEntry r c.name c) reg =
        reg ++ cs.map (fun c => (c.name, c)) := by
  intro cs
  induction cs with
  | nil => intro reg _ _; simp
  | cons c cs ih =>
    intro reg hdisj hnodup
    have hany : reg.any (fun p => p.1 == c.name) = false := by
      rw [List.any_eq_false]
      intro pr hpr
      simpa using hdisj c (List.mem_cons_self c cs) pr hpr
    have hset : setEntry reg c.name c = reg ++ [(c.name, c)] := by
      rw [setEntry, hany]
      simp
    rw [List.foldl_cons, hset,
      ih (reg ++ [(c.name, c)]) ?_ (List.nodup_cons.mp hnodup).2]
    · simp
    · intro c' hc' pr hpr
      rcases List.mem_append.mp hpr with h' | h'
      · exact hdisj c' (List.mem_cons_of_mem c hc') pr h'
      · rw [List.mem_singleton.mp h']
        intro hcn
        exact (List.nodup_cons.mp hnodup).1
          (List.mem_map.mpr ⟨c', hc', hcn.symm⟩)

theorem mergeCommands_of_nodup (plugins : List Plugin)
    (h : ((plugins.flatMap (fun p => p.commands)).map
      (fun c => c.name)).Nodup) :
    mergeCommands plugins =
      (plugins.flatMap (fun p => p.commands)).map (fun c => (c.name, c)) := by
  rw [mergeCommands_eq_foldl]
  simpa using
    foldl_setEntry_append (plugins.flatMap (fun p => p.commands)) []
      (by simp) h

/-- C5 counterexample: plugins A and B both declare `ping`.  The body
published on ready is the per-plugin concatenation — two entries named
`ping` — while the merged registry holds a single `ping` entry;
`("ping", "from plugin A")` is published yet absent from the registry's
contents, so the published commands do not equal the merged registry's
contents under any reading (as lists, multisets or sets), refuting the
claim in the duplicate-name case it quantifies over. -/
theorem registerCommands_publishes_duplicates_not_registry :
    registerCommands true [pluginA, pluginB] [("old", "entry")] =
        [("ping", "from plugin A"), ("ping", "from plugin B")] ∧
      registryPairs (mergeCommands [pluginA, pluginB]) =
        [("ping", "from plugin B")] ∧
      ("ping", "from plugin A") ∈
        registerCommands true [pluginA, pluginB] [("old", "entry")] ∧
      ("ping", "from plugin A") ∉
        registryPairs (mergeCommands [pluginA, pluginB]) ∧
      (registerCommands true [pluginA, pluginB] [("old", "entry")]).length = 2 ∧
      (registryPairs (mergeCommands [pluginA, pluginB])).length = 1 :=
  ⟨rfl, rfl, by decide, by decide, rfl, rfl⟩

/-- C5 (amended): the set published on ready is a full replacement of the
previous remote set by the concatenation, over the plugins in order, of
each plugin's commands' name and description; it equals the merged
name-keyed registry's contents precisely when no command name is declared
twice across plugins (with duplicates, the body repeats the name while the
registry keeps one entry). -/
theorem registerCommands_publishes_concatenation (plugins : List Plugin)
    (remote : List (String × String))
    (h : ((plugins.flatMap (fun p => p.commands)).map
      (fun c => c.name)).Nodup) :
    registerCommands true plugins remote = registerCommandsBody plugins ∧
      registerCommandsBody plugins = registryPairs (mergeCommands plugins) := by
  refine ⟨rfl, ?_⟩
  simp only [registerCommandsBody, registryPairs,
    mergeCommands_of_nodup plugins h, List.map_flatMap, List.map_map]
  rfl

/-- C5 witness: a single plugin with a single command. -/
theorem registerCommands_publishes_concatenation_witness :
    registerCommands true [pluginA] [] = registerCommandsBody [pluginA] ∧
      registerCommandsBody [pluginA] =
        registryPairs (mergeCommands [pluginA]) :=
  registerCommands_publishes_concatenation [pluginA] [] (by decide)

/-- C9: the subscriptions attached by `registerEventHandlers` are exactly
one per (plugin, event record) pair, in order: each record subscribes under
its event name, single-shot iff `once` is `true` (recurring when `once` is
false or absent), and its wrapped handler invokes the event's action with
the client, the owning plugin's config mapping, and the event-supplied
arguments in order. -/
theorem event_records_map_to_subscriptions (plugins : List Plugin)
    (plugin : Plugin) (e : Event) (hp : plugin ∈ plugins)
    (he : e ∈ plugin.events) :
    eventSubscriptions plugins =
      (pluginEventPairs plugins).map
        (fun pe => { event := pe.2.event, once := pe.2.once.getD false,
                     action := pe.2.action, config := pe.1 }) ∧
      ({ event := e.event, once := e.once.getD false, action := e.action,
         config := plugin.config.config } : Subscription) ∈
        eventSubscriptions plugins ∧
      (e.once.getD false = true ↔ e.once = some true) ∧
      ∀ args, runHandler { event := e.event, once := e.once.getD false,
                           action := e.action,
                           config := plugin.config.config } args =
        .invokeEvent e.action plugin.config.config args := by
  refine ⟨?_, ?_, ?_, fun args => rfl⟩
  · simp only [eventSubscriptions, pluginEventPairs, List.map_flatMap,
      List.map_map]
    rfl
  · rw [eventSubscriptions, List.mem_flatMap]
    exact ⟨plugin, hp, List.mem_map_of_mem _ he⟩
  · cases ho : e.once <;> simp [ho]

/-- C9 witness: one plugin declaring one single-shot `ready` event. -/
theorem event_records_map_to_subscriptions_witness :
    eventSubscriptions [pluginE] =
      (pluginEventPairs [pluginE]).map
        (fun pe => { event := pe.2.event, once := pe.2.once.getD false,
                     action := pe.2.action, config := pe.1 }) ∧
      ({ event := readyEvent.event, once := readyEvent.once.getD false,
         action := readyEvent.action,
         config := pluginE.config.config } : Subscription) ∈
        eventSubscriptions [pluginE] ∧
      (readyEvent.once.getD false = true ↔ readyEvent.once = some true) ∧
      ∀ args, runHandler { event := readyEvent.event,
                           once := readyEvent.once.getD false,
                           action := readyEvent.action,
                           config := pluginE.config.config } args =
        .invokeEvent readyEvent.action pluginE.config.config args :=
  event_records_map_to_subscriptions [pluginE] pluginE readyEvent
    (List.mem_singleton_self pluginE) (List.mem_singleton_self readyEvent)

/-- C10: after `Bot.start` completes, the token field stored on the client
is cleared (undefined), while the plugin list, the merged command registry,
the attached subscriptions and the logged-in flag are exactly those
established by the earlier steps; the final step (`client.token =
undefined`) changes nothing but the client token. -/
theorem start_clears_client_token_frame (loaded : List Plugin)
    (token : String) (s : BotState) :
    (start loaded token s).clientToken = none ∧
      (start loaded token s).plugins = loaded ∧
      (start loaded token s).commands = mergeCommands loaded ∧
      (start loaded token s).subscriptions = eventSubscriptions loaded ∧
      (start loaded token s).loggedIn = true ∧
      ∀ st : BotState, (clearClientToken st).plugins = st.plugins ∧
        (clearClientToken st).commands = st.commands ∧
        (clearClientToken st).subscriptions = st.subscriptions ∧
        (clearClientToken st).loggedIn = st.loggedIn ∧
        (clearClientToken st).clientToken = none :=
  ⟨rfl, rfl, rfl, rfl, rfl, fun _ => ⟨rfl, rfl, rfl, rfl, rfl⟩⟩

end BlitzBot
